import Mathlib

/-!
Shallow embedding of the MinHash document-similarity program
(`document_similarity.py`) and verification of its specified properties.

Documents are modelled as lists of bytes (the Python source encodes each
shingle with UTF-8 before hashing; the documents of interest are ASCII, so
bytes coincide with characters).  Machine integers are modelled as `Nat`
with explicit `% 2 ^ 32` where the source masks with `0xffffffff`.
Randomness is modelled by an explicit stream of draws (the successive
return values of `random.randint`).  A Python run-time fault (a raised
exception) is modelled by `Option.none` or by a dedicated error
constructor, as noted on each definition.
-/

set_option autoImplicit false

namespace DocSim

/-- One round of the bitwise CRC-32 computation: shift right by one and
conditionally xor the reflected polynomial 0xEDB88320, exactly the standard
algorithm implemented by `binascii.crc32`. -/
def crc32Round (c : ℕ) : ℕ :=
  if c % 2 = 1 then (c / 2) ^^^ 0xEDB88320 else c / 2

/-- Absorb one byte into the CRC-32 state (eight rounds after xoring the
byte into the low bits). -/
def crc32Byte (c b : ℕ) : ℕ :=
  crc32Round^[8] (c ^^^ b)

/-- CRC-32 checksum of a byte list, as computed by `binascii.crc32` in the
source (initial state and final mask 0xFFFFFFFF). -/
def crc32 (s : List ℕ) : ℕ :=
  (s.foldl crc32Byte 0xFFFFFFFF) ^^^ 0xFFFFFFFF

/-- Embedding of `shingling(s, k)` (src/document_similarity.py lines 46-61):
slide a window of length `k` and stride 1 across `s`, hash each window with
CRC-32 masked to 32 bits, and collect the hashes into a set.  Python's
`range(len(s) - k + 1)` is empty whenever `len(s) < k`, which truncated
`Nat` subtraction `s.length + 1 - k` reproduces exactly. -/
def shingling (s : List ℕ) (k : ℕ) : Finset ℕ :=
  ((List.range (s.length + 1 - k)).map
    (fun i => crc32 ((s.drop i).take k) % 2 ^ 32)).toFinset

/-- Embedding of `compare_sets(set1, set2)` (lines 64-73): Jaccard
similarity `len(set1 ∩ set2) / len(set1 ∪ set2)`.  When both sets are empty
the Python division raises `ZeroDivisionError`; that fault is modelled by
`none`. -/
def compare_sets (set1 set2 : Finset ℕ) : Option ℚ :=
  if set1 ∪ set2 = ∅ then none
  else some (((set1 ∩ set2).card : ℚ) / ((set1 ∪ set2).card : ℚ))

/-- The resampling loop of `generate_random_coefficient` (lines 95-96):
`while random_num in tmp: random_num = random.randint(...)`, driven by the
finite prefix `draws` of the random stream.  It returns the first draw that
is not in `tmp` together with the unconsumed rest of the stream, or `none`
when every available draw collides (the real loop would still be running). -/
def drawFresh (tmp : Finset ℕ) : List ℕ → Option (ℕ × List ℕ)
  | [] => none
  | d :: rest => if d ∈ tmp then drawFresh tmp rest else some (d, rest)

/-- The main loop of `generate_random_coefficient` (lines 88-97).  Each
iteration takes the next draw; a draw outside `tmp` is recorded in `tmp`
and appended, while a colliding draw triggers the resampling loop whose
result is appended WITHOUT being added to `tmp` — exactly as in the source,
which never executes `tmp.add` on the resampled value.  `none` means the
draw stream was exhausted while the code was still looping. -/
def genCoeffAux : ℕ → List ℕ → Finset ℕ → List ℕ → Option (List ℕ)
  | 0, _, _, acc => some acc.reverse
  | _ + 1, [], _, _ => none
  | n + 1, d :: rest, tmp, acc =>
    if d ∈ tmp then
      match drawFresh tmp rest with
      | none => none
      | some (d2, rest2) => genCoeffAux n rest2 tmp (d2 :: acc)
    else
      genCoeffAux n rest (insert d tmp) (d :: acc)

/-- Embedding of `generate_random_coefficient(max_hash_value, H)`
(lines 76-98), with the successive outputs of `random.randint(0, M)`
supplied explicitly as `draws`. -/
def generate_random_coefficient (H : ℕ) (draws : List ℕ) : Option (List ℕ) :=
  genCoeffAux H draws ∅ []

/-- Termination condition of the resampling loop at line 95 when the random
source is the infinite stream `f`: the loop halts if and only if some draw
escapes `tmp`.  The source contains no retry bound and no error path, so
when no draw ever escapes, the loop runs forever. -/
def resampleTerminates (tmp : Finset ℕ) (f : ℕ → ℕ) : Prop :=
  ∃ n, f n ∉ tmp

/-- One signature component (lines 114-120): the running minimum of
`(a * x + b) % M` over the shingle set, which is `⊤` (Python `None`) when
the set is empty because the inner loop then never executes. -/
def minHashComponent (a b M : ℕ) (S : Finset ℕ) : WithTop ℕ :=
  (S.image (fun x => (a * x + b) % M)).min

/-- Embedding of `min_hashing(hashed_shingle_set, H, M)` (lines 101-122)
with the module-level coefficient lists `A` and `B` passed explicitly:
for each hash-function index `i < H`, the minimum of
`(A[i] * x + B[i]) % M` over the set (or the `None` sentinel `⊤` for the
empty set). -/
def min_hashing (S : Finset ℕ) (A B : List ℕ) (H M : ℕ) : List (WithTop ℕ) :=
  (List.range H).map (fun i => minHashComponent (A.getD i 0) (B.getD i 0) M S)

/-- Possible outcomes of `compare_signatures`: a numeric score, the
`AssertionError` from the length check, the `TypeError` numpy raises when
sorting a signature that contains the `None` sentinel, or the
`ZeroDivisionError` from dividing by a zero length. -/
inductive CompareResult where
  | score : ℚ → CompareResult
  | dimensionMismatch : CompareResult
  | typeError : CompareResult
  | divisionByZero : CompareResult
deriving DecidableEq

/-- Embedding of `compare_signatures(sig1, sig2)` (lines 125-137): assert
equal lengths, then return `len(np.intersect1d(sig1, sig2)) / len(sig1)`.
`np.intersect1d` yields the distinct values common to both vectors, modelled
as the cardinality of the intersection of the two value sets; it is
position-blind.  Sorting a vector containing `None` raises `TypeError`, and
a zero length raises `ZeroDivisionError`. -/
def compare_signatures (sig1 sig2 : List (WithTop ℕ)) : CompareResult :=
  if sig1.length = sig2.length then
    if ⊤ ∈ sig1 ∨ ⊤ ∈ sig2 then .typeError
    else if sig1.length = 0 then .divisionByZero
    else .score (((sig1.toFinset ∩ sig2.toFinset).card : ℚ) / (sig1.length : ℚ))
  else .dimensionMismatch

/-- Modelled from the spec: the positional-agreement count used by the
standard MinHash estimator — the number of positions `i` at which the two
signatures hold equal values (spec §4.5, "count(sig1[i] == sig2[i])").
This is the semantics the spec requires; it is compared against the
value-set semantics the source actually computes. -/
def positionalAgreement (sig1 sig2 : List (WithTop ℕ)) : ℕ :=
  (sig1.zip sig2).countP (fun p => decide (p.1 = p.2))

/-! ### Helper lemmas -/

lemma getD_range_map {α : Type} (H : ℕ) (g : ℕ → α) (i : ℕ) (d : α)
    (hi : i < H) : ((List.range H).map g).getD i d = g i := by
  have hlen : i < ((List.range H).map g).length := by simpa using hi
  rw [List.getD_eq_getElem _ _ hlen]
  simp

lemma minHashComponent_ne_top (a b M : ℕ) (S : Finset ℕ) (hS : S.Nonempty) :
    minHashComponent a b M S ≠ ⊤ := by
  intro h
  have : S.image (fun x => (a * x + b) % M) = ∅ := Finset.min_eq_top.mp h
  exact (hS.image _).ne_empty this

lemma top_not_mem_min_hashing (S : Finset ℕ) (A B : List ℕ) (H M : ℕ)
    (hS : S.Nonempty) : ⊤ ∉ min_hashing S A B H M := by
  intro hmem
  rcases List.mem_map.mp hmem with ⟨i, _, hi⟩
  exact minHashComponent_ne_top _ _ _ _ hS hi

/-! ### Claim theorems -/

/-- Claim C7: for every non-empty shingle set, coefficient lists of length
at least `H`, and any index `i < H`, the signature built by `min_hashing`
has length `H` and its `i`-th component is exactly the minimum over all
`x` in the set of `(A[i] * x + B[i]) % M`: it is attained by some member
of the set and is a lower bound for every member. -/
theorem min_hashing_component_spec (S : Finset ℕ) (A B : List ℕ) (H M i : ℕ)
    (hS : S.Nonempty) (hi : i < H) (hA : H ≤ A.length) (hB : H ≤ B.length) :
    (min_hashing S A B H M).length = H ∧
    ∃ m : ℕ, (min_hashing S A B H M).getD i ⊤ = (m : WithTop ℕ) ∧
      (∃ x ∈ S, m = (A.getD i 0 * x + B.getD i 0) % M) ∧
      ∀ x ∈ S, m ≤ (A.getD i 0 * x + B.getD i 0) % M := by
  have hlen : (min_hashing S A B H M).length = H := by simp [min_hashing]
  refine ⟨hlen, ?_⟩
  have himg : (S.image (fun x => (A.getD i 0 * x + B.getD i 0) % M)).Nonempty :=
    hS.image _
  refine ⟨(S.image (fun x => (A.getD i 0 * x + B.getD i 0) % M)).min' himg,
    ?_, ?_, ?_⟩
  · rw [min_hashing, getD_range_map _ _ _ _ hi, minHashComponent,
      ← Finset.coe_min' himg]
    norm_cast
  · rcases Finset.mem_image.mp (Finset.min'_mem _ himg) with ⟨x, hx, hfx⟩
    exact ⟨x, hx, hfx.symm⟩
  · intro x hx
    exact Finset.min'_le _ _ (Finset.mem_image_of_mem _ hx)

/-- Witness for C7 at the concrete input S = {1}, A = [2], B = [3], H = 1,
M = 10, i = 0. -/
theorem min_hashing_component_spec_witness :
    ({1} : Finset ℕ).Nonempty ∧ 0 < 1 ∧ 1 ≤ ([2] : List ℕ).length ∧
    1 ≤ ([3] : List ℕ).length ∧
    ((min_hashing {1} [2] [3] 1 10).length = 1 ∧
      ∃ m : ℕ, (min_hashing {1} [2] [3] 1 10).getD 0 ⊤ = (m : WithTop ℕ) ∧
        (∃ x ∈ ({1} : Finset ℕ), m = (([2] : List ℕ).getD 0 0 * x + ([3] : List ℕ).getD 0 0) % 10) ∧
        ∀ x ∈ ({1} : Finset ℕ), m ≤ (([2] : List ℕ).getD 0 0 * x + ([3] : List ℕ).getD 0 0) % 10) :=
  ⟨by decide, by decide, by decide, by decide,
    min_hashing_component_spec {1} [2] [3] 1 10 0 (by decide) (by decide)
      (by decide) (by decide)⟩

/-- Claim C8: the signature comparator rejects any pair of signatures of
unequal length with the assertion error (modelled by `dimensionMismatch`),
before any element comparison: no numeric score and no other outcome is
possible for mismatched lengths. -/
theorem compare_signatures_length_check (sig1 sig2 : List (WithTop ℕ))
    (h : sig1.length ≠ sig2.length) :
    compare_signatures sig1 sig2 = .dimensionMismatch := by
  simp [compare_signatures, h]

/-- Witness for C8 at a concrete pair of lengths 1 and 0. -/
theorem compare_signatures_length_check_witness :
    ([((1 : ℕ) : WithTop ℕ)].length ≠ ([] : List (WithTop ℕ)).length) ∧
    compare_signatures [((1 : ℕ) : WithTop ℕ)] [] = .dimensionMismatch :=
  ⟨by decide, compare_signatures_length_check _ _ (by decide)⟩

/-- Claim C9: for every byte string `s` and shingle length `k ≥ 1`, the
shingle set has at most `max 0 (len s - k + 1)` elements (stated with the
truncated subtraction `s.length + 1 - k`, which equals that maximum), and
whenever `len s < k` the result is the empty set rather than an error.
Repeated windows collapse because the result is a set. -/
theorem shingling_card_bound (s : List ℕ) (k : ℕ) (hk : 1 ≤ k) :
    (shingling s k).card ≤ s.length + 1 - k ∧
    (s.length < k → shingling s k = ∅) := by
  constructor
  · calc (shingling s k).card
        ≤ ((List.range (s.length + 1 - k)).map
            (fun i => crc32 ((s.drop i).take k) % 2 ^ 32)).length :=
          List.toFinset_card_le _
      _ = s.length + 1 - k := by simp
  · intro hlt
    have : s.length + 1 - k = 0 := by omega
    simp [shingling, this]

/-- Witness for C9 at the concrete input s = [97] (one byte) and k = 5:
the string is shorter than the window, so the shingle set is empty. -/
theorem shingling_card_bound_witness :
    1 ≤ 5 ∧
    ((shingling [97] 5).card ≤ ([97] : List ℕ).length + 1 - 5 ∧
      (([97] : List ℕ).length < 5 → shingling [97] 5 = ∅)) :=
  ⟨by decide, shingling_card_bound [97] 5 (by decide)⟩

/-- Claim C10: for every shingle set (the empty set included), coefficient
lists of length at least `H` and a positive modulus (as fixed by the
program), the signature returned by `min_hashing` has length exactly `H`,
so all documents of a run receive signatures of identical length. -/
theorem min_hashing_length (S : Finset ℕ) (A B : List ℕ) (H M : ℕ)
    (hA : H ≤ A.length) (hB : H ≤ B.length) (hM : 0 < M) :
    (min_hashing S A B H M).length = H := by
  simp [min_hashing]

/-- Witness for C10 at the concrete input S = ∅, A = [1, 2], B = [3, 4],
H = 2, M = 4294967295. -/
theorem min_hashing_length_witness :
    2 ≤ ([1, 2] : List ℕ).length ∧ 2 ≤ ([3, 4] : List ℕ).length ∧
    0 < 4294967295 ∧
    (min_hashing ∅ [1, 2] [3, 4] 2 4294967295).length = 2 :=
  ⟨by decide, by decide, by decide,
    min_hashing_length ∅ [1, 2] [3, 4] 2 4294967295 (by decide) (by decide)
      (by decide)⟩

/-- Claim C1 counterexample: on the equal-length signatures [1, 2] and
[2, 1] the comparator returns 1 (their value sets coincide), while the
fraction of positions at which they hold equal values is 0/2 = 0.  The
claimed positional semantics therefore does not describe
`compare_signatures`. -/
theorem compare_signatures_positional_counterexample :
    compare_signatures [((1 : ℕ) : WithTop ℕ), ((2 : ℕ) : WithTop ℕ)]
        [((2 : ℕ) : WithTop ℕ), ((1 : ℕ) : WithTop ℕ)] = .score 1 ∧
    positionalAgreement [((1 : ℕ) : WithTop ℕ), ((2 : ℕ) : WithTop ℕ)]
        [((2 : ℕ) : WithTop ℕ), ((1 : ℕ) : WithTop ℕ)] = 0 ∧
    ((0 : ℚ) / 2 ≠ 1) := by
  refine ⟨?_, by decide, by norm_num⟩
  have hcard : ([((1 : ℕ) : WithTop ℕ), ((2 : ℕ) : WithTop ℕ)].toFinset ∩
      [((2 : ℕ) : WithTop ℕ), ((1 : ℕ) : WithTop ℕ)].toFinset).card = 2 := by
    decide
  simp [compare_signatures, hcard]

/-- Claim C1 as amended: for equal-length, non-empty signatures free of the
`None` sentinel, the estimated similarity equals the number of distinct
values occurring in both signatures divided by the signature length —
value-set intersection semantics, not positional agreement. -/
theorem compare_signatures_value_set_semantics (sig1 sig2 : List (WithTop ℕ))
    (hlen : sig1.length = sig2.length) (hne : sig1 ≠ [])
    (h1 : ⊤ ∉ sig1) (h2 : ⊤ ∉ sig2) :
    compare_signatures sig1 sig2 =
      .score (((sig1.toFinset.filter (fun v => v ∈ sig2)).card : ℚ) /
        (sig1.length : ℚ)) := by
  have hfilter : sig1.toFinset.filter (fun v => v ∈ sig2) =
      sig1.toFinset ∩ sig2.toFinset := by
    ext a
    simp [List.mem_toFinset]
  have h12 : ¬(⊤ ∈ sig1 ∨ ⊤ ∈ sig2) := by
    rintro (h | h)
    · exact h1 h
    · exact h2 h
  have hlen0 : sig1.length ≠ 0 := by
    simpa [List.length_eq_zero] using hne
  have hne2 : sig2 ≠ [] := by
    intro h
    rw [h] at hlen
    exact hne (List.length_eq_zero.mp hlen)
  have hlen0' : sig2.length ≠ 0 := by
    simpa [List.length_eq_zero] using hne2
  simp [compare_signatures, hlen, h12, hlen0, hlen0', hfilter]

/-- Witness for the amended C1 at the concrete pair ([1], [1]). -/
theorem compare_signatures_value_set_semantics_witness :
    ([((1 : ℕ) : WithTop ℕ)].length = [((1 : ℕ) : WithTop ℕ)].length) ∧
    ([((1 : ℕ) : WithTop ℕ)] ≠ []) ∧
    ((⊤ : WithTop ℕ) ∉ [((1 : ℕ) : WithTop ℕ)]) ∧
    ((⊤ : WithTop ℕ) ∉ [((1 : ℕ) : WithTop ℕ)]) ∧
    compare_signatures [((1 : ℕ) : WithTop ℕ)] [((1 : ℕ) : WithTop ℕ)] =
      .score ((([((1 : ℕ) : WithTop ℕ)].toFinset.filter
          (fun v => v ∈ [((1 : ℕ) : WithTop ℕ)])).card : ℚ) /
        ([((1 : ℕ) : WithTop ℕ)].length : ℚ)) :=
  ⟨rfl, by decide, by decide, by decide,
    compare_signatures_value_set_semantics _ _ rfl (by decide) (by decide)
      (by decide)⟩

/-- Claim C2 counterexample: the one-byte document [97] with k = 1 under
the duplicate-free hash family A = [1, 2], B = [3904355907, 0], H = 2,
M = 2^32 - 1.  Both hash functions send the single shingle to the same
value, so the two (identical) signatures have one distinct value and the
comparator returns 1/2, not 1, even though the exact Jaccard similarity of
the identical shingle sets is 1. -/
theorem identical_documents_estimate_counterexample :
    ([1, 2] : List ℕ).Nodup ∧ ([3904355907, 0] : List ℕ).Nodup ∧
    compare_sets (shingling [97] 1) (shingling [97] 1) = some 1 ∧
    compare_signatures
        (min_hashing (shingling [97] 1) [1, 2] [3904355907, 0] 2 4294967295)
        (min_hashing (shingling [97] 1) [1, 2] [3904355907, 0] 2 4294967295) =
      .score (1 / 2) ∧
    ((1 : ℚ) / 2 ≠ 1) := by
  have hs : shingling [97] 1 = {3904355907} := by decide
  have hmh : min_hashing (shingling [97] 1) [1, 2] [3904355907, 0] 2 4294967295 =
      [((3513744519 : ℕ) : WithTop ℕ), ((3513744519 : ℕ) : WithTop ℕ)] := by
    decide
  refine ⟨by decide, by decide, ?_, ?_, by norm_num⟩
  · rw [hs]
    simp [compare_sets]
  · rw [hmh]
    have hcard : ([((3513744519 : ℕ) : WithTop ℕ), ((3513744519 : ℕ) : WithTop ℕ)].toFinset ∩
        [((3513744519 : ℕ) : WithTop ℕ), ((3513744519 : ℕ) : WithTop ℕ)].toFinset).card = 1 := by
      decide
    simp [compare_signatures, hcard]

/-- Claim C2 as amended: for two identical normalized documents, the same
k and the same hash family, the shingle sets and signatures are identical
and the exact Jaccard similarity is 1 (the shingle set being non-empty);
the estimated similarity, however, equals the number of distinct signature
values divided by H, which is 1 only when no two components coincide. -/
theorem identical_documents_pipeline (s : List ℕ) (k : ℕ) (A B : List ℕ)
    (H M : ℕ) (hne : (shingling s k).Nonempty) (hH : 0 < H)
    (hA : H ≤ A.length) (hB : H ≤ B.length) :
    shingling s k = shingling s k ∧
    min_hashing (shingling s k) A B H M = min_hashing (shingling s k) A B H M ∧
    compare_sets (shingling s k) (shingling s k) = some 1 ∧
    compare_signatures (min_hashing (shingling s k) A B H M)
        (min_hashing (shingling s k) A B H M) =
      .score (((min_hashing (shingling s k) A B H M).toFinset.card : ℚ) /
        (H : ℚ)) := by
  refine ⟨rfl, rfl, ?_, ?_⟩
  · have hcard : ((shingling s k).card : ℚ) ≠ 0 := by
      exact_mod_cast Finset.card_ne_zero.mpr hne
    simp [compare_sets, Finset.union_self, Finset.inter_self, hne.ne_empty,
      div_self hcard]
  · have hTop := top_not_mem_min_hashing (shingling s k) A B H M hne
    have hlen : (min_hashing (shingling s k) A B H M).length = H := by
      simp [min_hashing]
    have hH0 : H ≠ 0 := Nat.pos_iff_ne_zero.mp hH
    simp [compare_signatures, hTop, hlen, hH0, Finset.inter_self]

/-- Witness for the amended C2 at the concrete document [97], k = 1,
A = [2], B = [3], H = 1, M = 10. -/
theorem identical_documents_pipeline_witness :
    (shingling [97] 1).Nonempty ∧ 0 < 1 ∧ 1 ≤ ([2] : List ℕ).length ∧
    1 ≤ ([3] : List ℕ).length ∧
    (shingling [97] 1 = shingling [97] 1 ∧
      min_hashing (shingling [97] 1) [2] [3] 1 10 =
        min_hashing (shingling [97] 1) [2] [3] 1 10 ∧
      compare_sets (shingling [97] 1) (shingling [97] 1) = some 1 ∧
      compare_signatures (min_hashing (shingling [97] 1) [2] [3] 1 10)
          (min_hashing (shingling [97] 1) [2] [3] 1 10) =
        .score (((min_hashing (shingling [97] 1) [2] [3] 1 10).toFinset.card : ℚ) /
          ((1 : ℕ) : ℚ))) :=
  ⟨by decide, by decide, by decide, by decide,
    identical_documents_pipeline [97] 1 [2] [3] 1 10 (by decide) (by decide)
      (by decide) (by decide)⟩

/-- Claim C3 counterexample: on the empty shingle set the signature builder
fills every one of the H components with the `None` sentinel (modelled by
`⊤`) instead of reporting an error, and the comparator does not refuse such
signatures with a check of its own — fed two sentinel-bearing signatures of
equal length it runs into numpy's `TypeError` while sorting. -/
theorem empty_set_sentinel_counterexample :
    min_hashing ∅ [1, 2] [3, 4] 2 4294967295 = [⊤, ⊤] ∧
    (⊤ ∈ min_hashing ∅ [1, 2] [3, 4] 2 4294967295) ∧
    compare_signatures [(⊤ : WithTop ℕ), ⊤] [(⊤ : WithTop ℕ), ⊤] =
      .typeError := by decide

/-- Claim C3 as amended: for the empty shingle set the builder returns the
length-H vector all of whose components are the `None` sentinel, and
comparing two such signatures of equal positive length ends in the
unchecked `TypeError` raised while sorting `None` values — the only
explicit check the comparator performs is the length assertion. -/
theorem empty_set_sentinel_behavior (A B : List ℕ) (H M : ℕ) (hH : 0 < H) :
    min_hashing ∅ A B H M = List.replicate H ⊤ ∧
    compare_signatures (List.replicate H (⊤ : WithTop ℕ))
      (List.replicate H ⊤) = .typeError := by
  constructor
  · simp [min_hashing, minHashComponent]
  · have hmem : (⊤ : WithTop ℕ) ∈ List.replicate H (⊤ : WithTop ℕ) := by
      rw [List.mem_replicate]
      exact ⟨Nat.pos_iff_ne_zero.mp hH, rfl⟩
    simp [compare_signatures, hmem]

/-- Witness for the amended C3 at H = 2 (with A = [], B = [], M = 7). -/
theorem empty_set_sentinel_behavior_witness :
    0 < 2 ∧
    (min_hashing ∅ [] [] 2 7 = List.replicate 2 ⊤ ∧
      compare_signatures (List.replicate 2 (⊤ : WithTop ℕ))
        (List.replicate 2 ⊤) = .typeError) :=
  ⟨by decide, empty_set_sentinel_behavior [] [] 2 7 (by decide)⟩

/-- Claim C4: with H = 3 and the random stream 5, 5, 7, 7 (each draw in
range for M = 2^32 - 1), the generator returns the list [5, 7, 7], which
contains a duplicate: the resampled value 7 is appended without being
recorded in `tmp`, so the third draw of 7 passes the membership test.  This
contradicts the documented no-duplicates invariant. -/
theorem generate_random_coefficient_duplicate :
    generate_random_coefficient 3 [5, 5, 7, 7] = some [5, 7, 7] ∧
    ¬ ([5, 7, 7] : List ℕ).Nodup := by decide

/-- Claim C5 counterexample: on two empty shingle sets `compare_sets`
produces no value — the division `0 / 0` raises `ZeroDivisionError` at run
time (modelled by `none`) instead of returning an explicit documented
result. -/
theorem compare_sets_empty_fault : compare_sets ∅ ∅ = none := by decide

/-- Claim C5 as amended: the 0/0 case is not resolved — on two empty sets
the division faults and no value reaches the caller; whenever at least one
set is non-empty, `compare_sets` returns |intersection| / |union|, a value
between 0 and 1. -/
theorem compare_sets_defined_on_nonempty_union (set1 set2 : Finset ℕ)
    (h : (set1 ∪ set2).Nonempty) :
    ∃ q : ℚ, compare_sets set1 set2 = some q ∧
      q = ((set1 ∩ set2).card : ℚ) / ((set1 ∪ set2).card : ℚ) ∧
      0 ≤ q ∧ q ≤ 1 := by
  refine ⟨((set1 ∩ set2).card : ℚ) / ((set1 ∪ set2).card : ℚ), ?_, rfl, ?_, ?_⟩
  · rw [compare_sets, if_neg h.ne_empty]
  · exact div_nonneg (Nat.cast_nonneg _) (Nat.cast_nonneg _)
  · rw [div_le_one (by exact_mod_cast Finset.card_pos.mpr h)]
    exact_mod_cast Finset.card_le_card Finset.inter_subset_union

/-- Witness for the amended C5 at set1 = {1}, set2 = ∅. -/
theorem compare_sets_defined_on_nonempty_union_witness :
    (({1} : Finset ℕ) ∪ ∅).Nonempty ∧
    ∃ q : ℚ, compare_sets {1} ∅ = some q ∧
      q = ((({1} : Finset ℕ) ∩ ∅).card : ℚ) / ((({1} : Finset ℕ) ∪ ∅).card : ℚ) ∧
      0 ≤ q ∧ q ≤ 1 :=
  ⟨by decide, compare_sets_defined_on_nonempty_union {1} ∅ (by decide)⟩

/-- Claim C6 counterexample: fed the infinite draw stream that constantly
returns 5 while 5 is already in `tmp` — a possible sequence of
`random.randint` outputs — the resampling loop never satisfies its exit
condition: it loops indefinitely, and no bounded number of attempts ends in
a reported configuration error. -/
theorem resample_constant_stream_diverges :
    ¬ resampleTerminates {5} (fun _ => 5) := by
  rintro ⟨n, hn⟩
  exact hn (Finset.mem_singleton_self 5)

/-- Claim C6 as amended: the resampling loop has no retry bound and no
error report; it halts only when the random stream eventually yields a
value outside `tmp`.  However many draws N are made available, a stream
that keeps returning an already-recorded value leaves the generator with no
result and no error — in the real program it is still looping. -/
theorem generate_random_coefficient_no_retry_bound :
    ∀ N : ℕ, generate_random_coefficient 2 (5 :: 5 :: List.replicate N 5) =
      none := by
  intro N
  have hmem : (5 : ℕ) ∈ ({5} : Finset ℕ) := Finset.mem_singleton_self 5
  have hdraw : ∀ n : ℕ,
      drawFresh ({5} : Finset ℕ) (List.replicate n 5) = none := by
    intro n
    induction n with
    | zero => rfl
    | succ m ih => rw [List.replicate_succ, drawFresh, if_pos hmem, ih]
  simp [generate_random_coefficient, genCoeffAux, hdraw N]

end DocSim
